import Mathlib

/-!
Verification development for the obsidian-mermaid-exporter plugin
(`src/main.ts`).  The plugin's pure logic is shallowly embedded here:
JavaScript strings are modelled as `List Char`, the DOM, the vault
storage API and the rendering engine are modelled as explicit oracles,
and the numeric code of the raster converter is modelled over `ℚ`.
-/

set_option maxHeartbeats 1000000

namespace MermaidExporter

/-- JavaScript strings are modelled as lists of characters. -/
abbrev JsStr := List Char

/-- Coercion of a Lean string literal into the JavaScript string model. -/
def js (s : String) : JsStr := s.data

/-- Model of `String.prototype.toLowerCase` (ASCII case folding, which is
all the plugin's keyword vocabulary needs). -/
def jsToLower (s : JsStr) : JsStr := s.map Char.toLower

/-- Model of `String.prototype.trim`: drop whitespace from both ends. -/
def jsTrim (s : JsStr) : JsStr :=
  ((s.dropWhile Char.isWhitespace).reverse.dropWhile Char.isWhitespace).reverse

/-- Model of `String.prototype.includes`: `pat` occurs as a contiguous
substring of `s`. -/
def jsIncludes (s pat : JsStr) : Bool :=
  match s with
  | [] => pat.isEmpty
  | c :: t => pat.isPrefixOf (c :: t) || jsIncludes t pat

theorem jsIncludes_iff (s pat : JsStr) : jsIncludes s pat = true ↔ pat <:+: s := by
  induction s with
  | nil =>
    simp [jsIncludes, List.infix_nil, List.isEmpty_iff]
  | cons c t ih =>
    simp only [jsIncludes, Bool.or_eq_true, ih, List.infix_cons_iff,
      List.isPrefixOf_iff_prefix]

/-- The fixed diagram-type keyword vocabulary of `validateMermaidCode`
(src/main.ts, lines 642-647). -/
def mermaidKeywords : List JsStr :=
  [js "graph", js "flowchart", js "sequencediagram", js "classdiagram",
   js "statediagram", js "erdiagram", js "gantt", js "pie", js "gitgraph",
   js "journey", js "requirement", js "c4context", js "c4container",
   js "c4component", js "mindmap", js "timeline", js "sankey-beta",
   js "quadrantchart"]

/-- Embedding of `validateMermaidCode` (src/main.ts, lines 634-650):
rejects empty / all-whitespace input, otherwise lower-cases the trimmed
input and checks whether any keyword of the fixed vocabulary occurs in
it. -/
def validateMermaidCode (code : JsStr) : Bool :=
  if code.isEmpty || (jsTrim code).isEmpty then false
  else
    let trimmed := jsToLower (jsTrim code)
    mermaidKeywords.any (fun keyword => jsIncludes trimmed keyword)

theorem mermaidKeywords_ne_nil : ∀ kw ∈ mermaidKeywords, kw ≠ [] := by
  decide

/-- C1: for every input string, the validator lower-cases and trims it and
returns true iff the result contains at least one keyword of the fixed
diagram-type vocabulary; in particular `isValid "flowchart TD\nA-->B"` is
true, `isValid "just some prose"` is false and `isValid ""` is false. -/
theorem validateMermaidCode_spec :
    (∀ code : JsStr, validateMermaidCode code = true ↔
      ∃ kw ∈ mermaidKeywords, kw <:+: jsToLower (jsTrim code))
    ∧ validateMermaidCode (js "flowchart TD\nA-->B") = true
    ∧ validateMermaidCode (js "just some prose") = false
    ∧ validateMermaidCode (js "") = false := by
  refine ⟨fun code => ?_, by decide, by decide, by decide⟩
  unfold validateMermaidCode
  by_cases hguard : (code.isEmpty || (jsTrim code).isEmpty) = true
  · simp only [hguard, if_true]
    constructor
    · intro h; exact absurd h (by simp)
    · rintro ⟨kw, hkw, hinf⟩
      have htrim : jsTrim code = [] := by
        rcases Bool.or_eq_true _ _ |>.mp hguard with h | h
        · have : code = [] := List.isEmpty_iff.mp h
          subst this; rfl
        · exact List.isEmpty_iff.mp h
      rw [htrim] at hinf
      simp only [jsToLower, List.map_nil, List.infix_nil] at hinf
      exact absurd hinf (mermaidKeywords_ne_nil kw hkw)
  · simp only [hguard, if_false, Bool.false_eq_true]
    rw [List.any_eq_true]
    constructor
    · rintro ⟨kw, hkw, h⟩
      exact ⟨kw, hkw, (jsIncludes_iff _ _).mp h⟩
    · rintro ⟨kw, hkw, h⟩
      exact ⟨kw, hkw, (jsIncludes_iff _ _).mpr h⟩

theorem infixMap (f : Char → Char) {p s : JsStr} (h : p <:+: s) :
    p.map f <:+: s.map f := by
  rcases h with ⟨a, b, rfl⟩
  exact ⟨a.map f, b.map f, by simp⟩

theorem infixRev {p s : JsStr} (h : p <:+: s) : p.reverse <:+: s.reverse := by
  rcases h with ⟨a, b, rfl⟩
  exact ⟨b.reverse, a.reverse, by simp⟩

theorem infixDropWhile (P : Char → Bool) {p : JsStr} :
    ∀ {l : JsStr}, p <:+: l → p ≠ [] → (∀ c ∈ p, P c = false) →
      p <:+: l.dropWhile P := by
  intro l
  induction l with
  | nil =>
    intro h hne _
    exact absurd (List.infix_nil.mp h) hne
  | cons x t ih =>
    intro h hne hall
    by_cases hx : P x = true
    · rw [List.dropWhile_cons_of_pos hx]
      rcases List.infix_cons_iff.mp h with hpre | hinf
      · rcases hpre with ⟨r, hr⟩
        match p, hne with
        | c :: p', _ =>
          have hcx : c = x := by
            have := congrArg (·.head?) hr
            simpa using this
          have : P c = false := hall c (by simp)
          rw [hcx, hx] at this
          exact absurd this (by simp)
      · exact ih hinf hne hall
    · rw [List.dropWhile_cons_of_neg hx]
      exact h

theorem infixTrimmed {p s : JsStr} (h : p <:+: s) (hne : p ≠ [])
    (hall : ∀ c ∈ p, c.isWhitespace = false) : p <:+: jsTrim s := by
  have h1 : p <:+: s.dropWhile Char.isWhitespace :=
    infixDropWhile Char.isWhitespace h hne hall
  have h2 : p.reverse <:+: (s.dropWhile Char.isWhitespace).reverse :=
    infixRev h1
  have h3 : p.reverse <:+:
      (s.dropWhile Char.isWhitespace).reverse.dropWhile Char.isWhitespace := by
    refine infixDropWhile Char.isWhitespace h2 ?_ ?_
    · simpa using hne
    · intro c hc
      exact hall c (List.mem_reverse.mp hc)
  have h4 := infixRev h3
  rw [List.reverse_reverse] at h4
  exact h4

/-- The keyword list used inline by extraction strategy 3
(src/main.ts, lines 540-543).  Unlike the validator's vocabulary it is
checked case-sensitively against the untrimmed candidate text. -/
def strategy3Keywords : List JsStr :=
  [js "graph", js "flowchart", js "sequenceDiagram", js "classDiagram",
   js "stateDiagram", js "erDiagram", js "gantt", js "pie", js "gitgraph",
   js "journey", js "requirement", js "C4Context"]

/-- Embedding of extraction strategy 3 of `extractMermaidCode`
(src/main.ts, lines 534-547): given the text content of the code child of
the nearest enclosing `pre` ancestor, accept it (returning it trimmed)
only when it is non-empty and the inline keyword disjunction holds. -/
def extractStrategy3 (code : JsStr) : Option JsStr :=
  if !code.isEmpty &&
      (jsIncludes code (js "graph") || jsIncludes code (js "flowchart") ||
       jsIncludes code (js "sequenceDiagram") || jsIncludes code (js "classDiagram") ||
       jsIncludes code (js "stateDiagram") || jsIncludes code (js "erDiagram") ||
       jsIncludes code (js "gantt") || jsIncludes code (js "pie") ||
       jsIncludes code (js "gitgraph") || jsIncludes code (js "journey") ||
       jsIncludes code (js "requirement") || jsIncludes code (js "C4Context")) then
    some (jsTrim code)
  else
    none

theorem extractStrategy3_keyword {code : JsStr}
    (h : (extractStrategy3 code).isSome = true) :
    ∃ kw ∈ strategy3Keywords, jsIncludes code kw = true := by
  unfold extractStrategy3 at h
  split at h
  · next hcond =>
    have hor := (Bool.and_eq_true _ _).mp hcond |>.2
    have : strategy3Keywords.any (fun kw => jsIncludes code kw) = true := by
      simp only [strategy3Keywords, List.any_cons, List.any_nil, Bool.or_false]
      simp only [Bool.or_eq_true] at hor ⊢
      tauto
    rcases List.any_eq_true.mp this with ⟨kw, hkw, hinc⟩
    exact ⟨kw, hkw, hinc⟩
  · simp at h

theorem strategy3Keywords_lowered :
    ∀ kw ∈ strategy3Keywords,
      jsToLower kw ∈ mermaidKeywords ∧ kw ≠ [] ∧
      (∀ c ∈ kw, c.isWhitespace = false) := by
  decide

/-- C9: a candidate accepted by extraction strategy 3 always contains
(under the validator's case folding) a keyword of the validator's fixed
diagram-type vocabulary; consequently the accepted candidate also passes
the validator itself. -/
theorem extractStrategy3_only_recognized {code : JsStr}
    (h : (extractStrategy3 code).isSome = true) :
    (∃ kw ∈ mermaidKeywords, kw <:+: jsToLower code)
    ∧ validateMermaidCode code = true := by
  rcases extractStrategy3_keyword h with ⟨kw, hkw, hinc⟩
  rcases strategy3Keywords_lowered kw hkw with ⟨hmem, hne, hws⟩
  have hinf : kw <:+: code := (jsIncludes_iff _ _).mp hinc
  constructor
  · exact ⟨jsToLower kw, hmem, infixMap Char.toLower hinf⟩
  · have htrim : kw <:+: jsTrim code := infixTrimmed hinf hne hws
    have htrimne : ¬ (jsTrim code).isEmpty = true := by
      intro hempty
      rw [List.isEmpty_iff.mp hempty] at htrim
      exact hne (List.infix_nil.mp htrim)
    have hcodene : ¬ code.isEmpty = true := by
      intro hempty
      rw [List.isEmpty_iff.mp hempty] at hinf
      exact hne (List.infix_nil.mp hinf)
    unfold validateMermaidCode
    rw [if_neg (by simp [htrimne, hcodene])]
    rw [List.any_eq_true]
    refine ⟨jsToLower kw, hmem, ?_⟩
    exact (jsIncludes_iff _ _).mpr (infixMap Char.toLower htrim)

/-- Witness for C9 at the concrete accepted candidate
`"flowchart TD\nA-->B"`. -/
theorem extractStrategy3_only_recognized_witness :
    (∃ kw ∈ MermaidExporter.mermaidKeywords,
      kw <:+: MermaidExporter.jsToLower (MermaidExporter.js "flowchart TD\nA-->B"))
    ∧ MermaidExporter.validateMermaidCode (MermaidExporter.js "flowchart TD\nA-->B") = true :=
  extractStrategy3_only_recognized (by decide)

/-- Recursion core of `jsReplaceAll`.  The fuel argument is a structural
termination device only: every step consumes at least one character of
`s`, so any fuel of at least `s.length + 1` gives the untruncated
left-to-right non-overlapping replacement. -/
def jsReplaceAllAux (pat rep : JsStr) : Nat → JsStr → JsStr
  | 0, s => s
  | _ + 1, [] => []
  | fuel + 1, c :: t =>
    if pat.isPrefixOf (c :: t) then
      rep ++ jsReplaceAllAux pat rep fuel ((c :: t).drop pat.length)
    else
      c :: jsReplaceAllAux pat rep fuel t

/-- Model of `String.prototype.replace` with a global literal pattern:
left-to-right, non-overlapping replacement of every occurrence of `pat`
by `rep`.  An empty pattern never arises in the plugin. -/
def jsReplaceAll (s pat rep : JsStr) : JsStr :=
  if pat.isEmpty then s else jsReplaceAllAux pat rep (s.length + 1) s

/-- Model of `String.prototype.endsWith`. -/
def jsEndsWith (s post : JsStr) : Bool := post.isSuffixOf s

/-- Placeholder substitution step of `generateFilename`
(src/main.ts, lines 817-823): take the configured template (falling back
to the default template when it is empty) and substitute the four
placeholders in order. -/
def substitutePlaceholders (filenameFormat noteName timestamp date time : JsStr) : JsStr :=
  let filename := if filenameFormat.isEmpty then js "{noteName}-{timestamp}" else filenameFormat
  let filename := jsReplaceAll filename (js "{noteName}") noteName
  let filename := jsReplaceAll filename (js "{timestamp}") timestamp
  let filename := jsReplaceAll filename (js "{date}") date
  let filename := jsReplaceAll filename (js "{time}") time
  filename

/-- Embedding of `generateFilename` (src/main.ts, lines 804-832):
substitute the placeholders, then append a dot plus the selected format's
extension (`"svg"` when the format setting is empty) unless the name
already ends with it. -/
def generateFilename (filenameFormat noteName timestamp date time exportFormat : JsStr) : JsStr :=
  let filename := substitutePlaceholders filenameFormat noteName timestamp date time
  let extension := if exportFormat.isEmpty then js "svg" else exportFormat
  if jsEndsWith filename (js "." ++ extension) then filename
  else filename ++ js "." ++ extension

theorem jsEndsWith_append (s post : JsStr) : jsEndsWith (s ++ post) post = true := by
  unfold jsEndsWith
  rw [List.isSuffixOf_iff_suffix]
  exact List.suffix_append s post

/-- C6: the generator substitutes the four placeholders and appends a dot
plus the selected format's extension unless the result already ends with
it; in particular the template `"{noteName}-{date}"` with note name
`"Design"`, date `"2024-03-01"` and the vector format yields
`"Design-2024-03-01.svg"`.  The second conjunct shows the output always
ends in the extension, the third that all four placeholders are
substituted, and the fourth that no extension is appended when the
substituted name already carries it. -/
theorem generateFilename_spec :
    (∀ timestamp time : JsStr,
      generateFilename (js "{noteName}-{date}") (js "Design") timestamp
        (js "2024-03-01") time (js "svg") = js "Design-2024-03-01.svg")
    ∧ (∀ filenameFormat noteName timestamp date time exportFormat : JsStr,
      jsEndsWith
        (generateFilename filenameFormat noteName timestamp date time exportFormat)
        (js "." ++ (if exportFormat.isEmpty then js "svg" else exportFormat)) = true)
    ∧ generateFilename (js "{noteName}-{timestamp}-{date}-{time}") (js "Design")
        (js "2024-03-01T10-00-00") (js "2024-03-01") (js "10-00-00") (js "png")
      = js "Design-2024-03-01T10-00-00-2024-03-01-10-00-00.png"
    ∧ generateFilename (js "{noteName}.svg") (js "Design") (js "t") (js "d")
        (js "tm") (js "svg") = js "Design.svg" := by
  refine ⟨fun timestamp time => rfl, ?_, by decide, by decide⟩
  intro filenameFormat noteName timestamp date time exportFormat
  unfold generateFilename
  set filename := substitutePlaceholders filenameFormat noteName timestamp date time
  set extension := if exportFormat.isEmpty then js "svg" else exportFormat
  by_cases h : jsEndsWith filename (js "." ++ extension) = true
  · rw [if_pos h]; exact h
  · rw [if_neg h, List.append_assoc]
    exact jsEndsWith_append filename (js "." ++ extension)

/-- Delivery action chosen at the end of a successful export
(src/main.ts, lines 458-468): either a direct file download with the
given MIME type or a raster conversion in the given format. -/
inductive ExportAction where
  | download (mime : JsStr)
  | rasterConvert (format : JsStr)
deriving DecidableEq

/-- Outcome of one `handleExportClick` run: one of the three early-return
failure categories, or a delivered file. -/
inductive ExportResult where
  | extractionError
  | validationError
  | renderError
  | exported (action : ExportAction) (filename : JsStr)
deriving DecidableEq

/-- Environment of one export click.  The DOM extraction heuristics and
the external rendering engine are collaborators, so their outcomes enter
the model as oracles: `extractedCode` is the result of
`extractMermaidCode` and `renderOutput` the result of
`renderMermaidToSvg` (`none` models the null return).  The remaining
fields are the settings snapshot and the date components used by
`generateFilename`. -/
structure ExportEnv where
  extractedCode : Option JsStr
  renderOutput : Option JsStr
  exportFormat : JsStr
  filenameFormat : JsStr
  noteName : JsStr
  timestamp : JsStr
  date : JsStr
  time : JsStr
deriving DecidableEq

/-- Embedding of `handleExportClick` (src/main.ts, lines 420-478).  The
returned Boolean records whether `renderMermaidToSvg` was invoked. -/
def handleExportClick (env : ExportEnv) : ExportResult × Bool :=
  match env.extractedCode with
  | none => (.extractionError, false)
  | some mermaidCode =>
    if !validateMermaidCode mermaidCode then (.validationError, false)
    else
      match env.renderOutput with
      | none => (.renderError, true)
      | some _svgContent =>
        let filename := generateFilename env.filenameFormat env.noteName
          env.timestamp env.date env.time env.exportFormat
        let exportFormat := if env.exportFormat.isEmpty then js "svg" else env.exportFormat
        if exportFormat = js "svg" then
          (.exported (.download (js "image/svg+xml;charset=utf-8")) filename, true)
        else if exportFormat = js "png" ∨ exportFormat = js "jpeg" then
          (.exported (.rasterConvert exportFormat) filename, true)
        else
          (.exported (.download (js "image/svg+xml;charset=utf-8")) filename, true)

/-- C2: the render step is never invoked on source text that fails
validation: whenever the recovered text is rejected by the validator, the
operation halts with a validation failure and the render flag stays
false, for every possible render oracle and settings snapshot. -/
theorem handleExportClick_validation_gate (env : ExportEnv) (code : JsStr)
    (hex : env.extractedCode = some code)
    (hval : validateMermaidCode code = false) :
    handleExportClick env = (.validationError, false) := by
  unfold handleExportClick
  rw [hex]
  simp [hval]

/-- Witness for C2: the recovered text `"not a diagram"` fails validation
and the pipeline halts before any render attempt. -/
theorem handleExportClick_validation_gate_witness :
    MermaidExporter.handleExportClick
      { extractedCode := some (MermaidExporter.js "not a diagram")
        renderOutput := some (MermaidExporter.js "svg-markup")
        exportFormat := MermaidExporter.js "png"
        filenameFormat := MermaidExporter.js "{noteName}"
        noteName := MermaidExporter.js "Design"
        timestamp := MermaidExporter.js "t"
        date := MermaidExporter.js "d"
        time := MermaidExporter.js "tm" }
      = (.validationError, false) :=
  handleExportClick_validation_gate _ (MermaidExporter.js "not a diagram") rfl (by decide)

/-- C10: when the configured output format is neither `"png"` nor
`"jpeg"` (including any unrecognized format string), a successful export
delivers the SVG vector file with MIME type `image/svg+xml;charset=utf-8`
and never attempts a raster conversion. -/
theorem handleExportClick_svg_fallback (env : ExportEnv) (code svgContent : JsStr)
    (hex : env.extractedCode = some code)
    (hval : validateMermaidCode code = true)
    (hrender : env.renderOutput = some svgContent)
    (hpng : env.exportFormat ≠ js "png")
    (hjpeg : env.exportFormat ≠ js "jpeg") :
    handleExportClick env =
      (.exported (.download (js "image/svg+xml;charset=utf-8"))
        (generateFilename env.filenameFormat env.noteName env.timestamp
          env.date env.time env.exportFormat), true) := by
  unfold handleExportClick
  rw [hex]
  simp only [hval, Bool.not_true, Bool.false_eq_true, if_false, hrender]
  by_cases hempty : env.exportFormat.isEmpty
  · simp [hempty]
  · have hne : ¬ (js "svg").isEmpty := by decide
    by_cases hsvg : env.exportFormat = js "svg"
    · simp [hempty, hsvg]
    · simp [hempty, hsvg, hpng, hjpeg]

/-- Witness for C10 at the unrecognized format `"webp"`. -/
theorem handleExportClick_svg_fallback_witness :
    MermaidExporter.handleExportClick
      { extractedCode := some (MermaidExporter.js "graph TD")
        renderOutput := some (MermaidExporter.js "svg-markup")
        exportFormat := MermaidExporter.js "webp"
        filenameFormat := MermaidExporter.js "{noteName}"
        noteName := MermaidExporter.js "Design"
        timestamp := MermaidExporter.js "t"
        date := MermaidExporter.js "d"
        time := MermaidExporter.js "tm" }
      = (.exported (.download (MermaidExporter.js "image/svg+xml;charset=utf-8"))
          (MermaidExporter.generateFilename (MermaidExporter.js "{noteName}")
            (MermaidExporter.js "Design") (MermaidExporter.js "t")
            (MermaidExporter.js "d") (MermaidExporter.js "tm")
            (MermaidExporter.js "webp")), true) :=
  handleExportClick_svg_fallback _ (MermaidExporter.js "graph TD")
    (MermaidExporter.js "svg-markup") rfl (by decide) rfl (by decide) (by decide)

/-- Recursion core of `jsSplitWs`.  The fuel argument is a structural
termination device only: every recursive step consumes at least the one
whitespace character heading the delimiter run, so any fuel of at least
`s.length + 1` gives the untruncated split. -/
def jsSplitWsAux : Nat → JsStr → List JsStr
  | 0, s => [s]
  | fuel + 1, s =>
    let tok := s.takeWhile (fun c => !c.isWhitespace)
    let rest := s.dropWhile (fun c => !c.isWhitespace)
    match rest with
    | [] => [tok]
    | _ :: t => tok :: jsSplitWsAux fuel (t.dropWhile Char.isWhitespace)

/-- Model of `String.prototype.split` with the pattern `/\s+/`: fields
separated by maximal whitespace runs, keeping the empty boundary fields
JavaScript produces for leading or trailing whitespace. -/
def jsSplitWs (s : JsStr) : List JsStr := jsSplitWsAux (s.length + 1) s

/-- Decimal digit run folded into a natural number. -/
def digitsToNat (ds : JsStr) : Nat := ds.foldl (fun a c => a * 10 + (c.toNat - 48)) 0

/-- Model of the JavaScript `parseFloat` collaborator on the decimal
numerals the plugin feeds it: skip leading whitespace, read an optional
sign, an integer digit run and an optional fraction digit run, ignore any
trailing garbage; `none` models the NaN produced when no digit is read.
(The exponent syntax of full `parseFloat` never arises here.) -/
def parseFloatQ (s : JsStr) : Option ℚ :=
  let afterWs := s.dropWhile Char.isWhitespace
  let signed : ℚ × JsStr :=
    match afterWs with
    | '-' :: t => (-1, t)
    | '+' :: t => (1, t)
    | _ => (1, afterWs)
  let intPart := signed.2.takeWhile Char.isDigit
  let afterInt := signed.2.dropWhile Char.isDigit
  let fracPart :=
    match afterInt with
    | '.' :: t => t.takeWhile Char.isDigit
    | _ => []
  if intPart.isEmpty && fracPart.isEmpty then none
  else some (signed.1 *
    ((digitsToNat intPart : ℚ) + (digitsToNat fracPart : ℚ) / (10 : ℚ) ^ fracPart.length))

/-- Model of `Math.round`: round half toward positive infinity. -/
def jsMathRound (q : ℚ) : ℤ := ⌊q + 1 / 2⌋

/-- Model of the `attr || defaultLiteral` idiom: a missing or empty
attribute value falls back to the default. -/
def jsOrDefault (a : Option JsStr) (b : JsStr) : JsStr :=
  match a with
  | some s => if s.isEmpty then b else s
  | none => b

/-- Embedding of `getQualityMultiplier` (src/main.ts, lines 1014-1027). -/
def getQualityMultiplier (exportQuality : JsStr) : ℚ :=
  if exportQuality = js "low" then 1
  else if exportQuality = js "medium" then 3 / 2
  else if exportQuality = js "high" then 2
  else if exportQuality = js "maximum" then 3
  else 2

/-- Embedding of the dimension computation of `convertSvgToRaster`
(src/main.ts, lines 938-954): the re-parsed artifact's attributes enter
as oracles (`none` models a missing attribute).  Width and height start
from the width/height attributes with the `800`/`600` defaults, are
overridden by fields 2 and 3 of a truthy viewBox attribute that splits
into at least four fields, and are then scaled by the quality multiplier
and rounded. -/
def rasterTargetDims (viewBox width height : Option JsStr) (exportQuality : JsStr) :
    Option ℤ × Option ℤ :=
  let width0 := parseFloatQ (jsOrDefault width (js "800"))
  let height0 := parseFloatQ (jsOrDefault height (js "600"))
  let dims : Option ℚ × Option ℚ :=
    match viewBox with
    | some vb =>
      if !vb.isEmpty then
        let parts := jsSplitWs vb
        if 4 ≤ parts.length then
          (parseFloatQ (parts.getD 2 []), parseFloatQ (parts.getD 3 []))
        else (width0, height0)
      else (width0, height0)
    | none => (width0, height0)
  let qualityMultiplier := getQualityMultiplier exportQuality
  (dims.1.map (fun w => jsMathRound (w * qualityMultiplier)),
   dims.2.map (fun h => jsMathRound (h * qualityMultiplier)))

theorem parseFloatQ_eval (n : ℕ) (s : JsStr)
    (h : parseFloatQ s = some (1 * ((n : ℚ) + ((0 : ℕ) : ℚ) / (10 : ℚ) ^ (0 : ℕ)))) :
    parseFloatQ s = some n := by
  rw [h]; push_cast; norm_num

/-- C3: raster dimensions come from the viewport attribute when it is
present (with at least four fields), else from the width/height
attributes, else default to 800×600, each scaled by the quality-tier
multiplier and rounded; quality `"maximum"` (factor 3) on viewport
`"0 0 400 300"` gives exactly 1200×900. -/
theorem convertSvgToRaster_dims :
    (∀ width height : Option JsStr,
      rasterTargetDims (some (js "0 0 400 300")) width height (js "maximum")
        = (some 1200, some 900))
    ∧ (∀ vb : JsStr, ∀ width height : Option JsStr, ∀ q : JsStr,
      vb.isEmpty = false → 4 ≤ (jsSplitWs vb).length →
      rasterTargetDims (some vb) width height q
        = ((parseFloatQ ((jsSplitWs vb).getD 2 [])).map
             (fun w => jsMathRound (w * getQualityMultiplier q)),
           (parseFloatQ ((jsSplitWs vb).getD 3 [])).map
             (fun h => jsMathRound (h * getQualityMultiplier q))))
    ∧ (∀ width height : Option JsStr, ∀ q : JsStr,
      rasterTargetDims none width height q
        = ((parseFloatQ (jsOrDefault width (js "800"))).map
             (fun w => jsMathRound (w * getQualityMultiplier q)),
           (parseFloatQ (jsOrDefault height (js "600"))).map
             (fun h => jsMathRound (h * getQualityMultiplier q))))
    ∧ rasterTargetDims none none none (js "low") = (some 800, some 600)
    ∧ getQualityMultiplier (js "low") = 1
    ∧ getQualityMultiplier (js "medium") = 3 / 2
    ∧ getQualityMultiplier (js "high") = 2
    ∧ getQualityMultiplier (js "maximum") = 3 := by
  refine ⟨fun width height => ?_, ?_, fun width height q => rfl, ?_, rfl, rfl, rfl, rfl⟩
  · have h2 : rasterTargetDims (some (js "0 0 400 300")) width height (js "maximum")
        = ((parseFloatQ (js "400")).map
             (fun w => jsMathRound (w * getQualityMultiplier (js "maximum"))),
           (parseFloatQ (js "300")).map
             (fun h => jsMathRound (h * getQualityMultiplier (js "maximum")))) := rfl
    rw [h2, parseFloatQ_eval 400 (js "400") rfl, parseFloatQ_eval 300 (js "300") rfl,
      show getQualityMultiplier (js "maximum") = 3 from rfl]
    simp only [Option.map_some, Prod.mk.injEq, Option.some.injEq, jsMathRound]
    constructor <;> norm_num
  · intro vb width height q hne hlen
    simp only [rasterTargetDims, hne, Bool.not_false, if_true, if_pos hlen]
  · have h4 : rasterTargetDims none none none (js "low")
        = ((parseFloatQ (js "800")).map
             (fun w => jsMathRound (w * getQualityMultiplier (js "low"))),
           (parseFloatQ (js "600")).map
             (fun h => jsMathRound (h * getQualityMultiplier (js "low")))) := rfl
    rw [h4, parseFloatQ_eval 800 (js "800") rfl, parseFloatQ_eval 600 (js "600") rfl,
      show getQualityMultiplier (js "low") = 1 from rfl]
    simp only [Option.map_some, Prod.mk.injEq, Option.some.injEq, jsMathRound]
    constructor <;> norm_num

/-- Witness for C3's viewport clause at the concrete viewport
`"0 0 50 60"` and quality `"high"`. -/
theorem convertSvgToRaster_dims_witness :
    rasterTargetDims (some (js "0 0 50 60")) none none (js "high")
      = ((parseFloatQ ((jsSplitWs (js "0 0 50 60")).getD 2 [])).map
           (fun w => jsMathRound (w * getQualityMultiplier (js "high"))),
         (parseFloatQ ((jsSplitWs (js "0 0 50 60")).getD 3 [])).map
           (fun h => jsMathRound (h * getQualityMultiplier (js "high")))) :=
  convertSvgToRaster_dims.2.1 (js "0 0 50 60") none none (js "high")
    (by decide) (by decide)

/-- Attribute view of a successfully parsed vector artifact: exactly the
five attributes `generateHighQualitySvg` reads or writes.  `none` models
`getAttribute` returning null. -/
structure SvgAttrs where
  width : Option JsStr
  height : Option JsStr
  viewBox : Option JsStr
  xmlns : Option JsStr
  xmlnsXlink : Option JsStr
deriving DecidableEq

/-- JavaScript truthiness of a `getAttribute` result: null and the empty
string are falsy. -/
def attrTruthy : Option JsStr → Bool
  | none => false
  | some s => !s.isEmpty

/-- The synthesized viewport value, the template literal
`0 0 ${currentWidth} ${currentHeight}`. -/
def synthViewBox (w h : JsStr) : JsStr := js "0 0 " ++ w ++ js " " ++ h

/-- The viewport-synthesis step of `generateHighQualitySvg` (repeated at
src/main.ts lines 770-772 and 778-785): when the element has no truthy
viewport but both cached dimension attributes are truthy, set the
viewport to the synthesized template literal. -/
def synthesizeViewBox (currentWidth currentHeight : Option JsStr) (svg : SvgAttrs) : SvgAttrs :=
  if !attrTruthy svg.viewBox && attrTruthy currentWidth && attrTruthy currentHeight then
    { svg with viewBox := some (synthViewBox (currentWidth.getD []) (currentHeight.getD [])) }
  else svg

/-- Namespace-declaration step of `generateHighQualitySvg`
(src/main.ts, lines 789-791). -/
def ensureXmlns (svg : SvgAttrs) : SvgAttrs :=
  if !attrTruthy svg.xmlns then { svg with xmlns := some (js "http://www.w3.org/2000/svg") }
  else svg

/-- Namespace-declaration step of `generateHighQualitySvg`
(src/main.ts, lines 792-794). -/
def ensureXmlnsXlink (svg : SvgAttrs) : SvgAttrs :=
  if !attrTruthy svg.xmlnsXlink then
    { svg with xmlnsXlink := some (js "http://www.w3.org/1999/xlink") }
  else svg

/-- Embedding of `generateHighQualitySvg` (src/main.ts, lines 751-799)
after a successful parse: synthesize a viewport from the cached explicit
width/height when no truthy viewport is present, repeat the synthesis on
the updated element inside the per-quality branches, then ensure the two
namespace declarations. -/
def generateHighQualitySvg (exportQuality : JsStr) (svg : SvgAttrs) : SvgAttrs :=
  let currentWidth := svg.width
  let currentHeight := svg.height
  let svg1 := synthesizeViewBox currentWidth currentHeight svg
  let svg2 :=
    if exportQuality = js "maximum" ∨ exportQuality = js "high" then
      synthesizeViewBox currentWidth currentHeight svg1
    else if exportQuality = js "medium" then
      synthesizeViewBox currentWidth currentHeight svg1
    else svg1
  ensureXmlnsXlink (ensureXmlns svg2)

theorem attrTruthy_synthViewBox (w h : JsStr) :
    attrTruthy (some (synthViewBox w h)) = true := by
  simp [attrTruthy, synthViewBox, js, List.isEmpty_iff]

theorem viewBox_ensureXmlns (svg : SvgAttrs) : (ensureXmlns svg).viewBox = svg.viewBox := by
  unfold ensureXmlns
  split <;> rfl

theorem viewBox_ensureXmlnsXlink (svg : SvgAttrs) :
    (ensureXmlnsXlink svg).viewBox = svg.viewBox := by
  unfold ensureXmlnsXlink
  split <;> rfl

theorem synthesizeViewBox_truthy (w h : Option JsStr) (svg : SvgAttrs)
    (hw : attrTruthy w = true) (hh : attrTruthy h = true) :
    attrTruthy (synthesizeViewBox w h svg).viewBox = true := by
  unfold synthesizeViewBox
  cases hv : attrTruthy svg.viewBox with
  | true =>
    simp only [hv, Bool.not_true, Bool.false_and, Bool.false_eq_true, if_false]
  | false =>
    simp only [hv, hw, hh, Bool.not_false, Bool.true_and, Bool.and_self, if_true]
    exact attrTruthy_synthViewBox _ _

theorem synthesizeViewBox_keeps_truthy (w h : Option JsStr) (svg : SvgAttrs)
    (hv : attrTruthy svg.viewBox = true) :
    attrTruthy (synthesizeViewBox w h svg).viewBox = true := by
  unfold synthesizeViewBox
  simp only [hv, Bool.not_true, Bool.false_and, Bool.false_eq_true, if_false]

/-- C4: for every successfully parsed input carrying explicit (truthy)
width and height attributes, the normalized output has a truthy (present
and non-empty) viewport attribute, whatever the quality setting. -/
theorem generateHighQualitySvg_viewBox (exportQuality : JsStr) (svg : SvgAttrs)
    (hw : attrTruthy svg.width = true) (hh : attrTruthy svg.height = true) :
    attrTruthy (generateHighQualitySvg exportQuality svg).viewBox = true := by
  unfold generateHighQualitySvg
  rw [viewBox_ensureXmlnsXlink, viewBox_ensureXmlns]
  have h1 : attrTruthy (synthesizeViewBox svg.width svg.height svg).viewBox = true :=
    synthesizeViewBox_truthy svg.width svg.height svg hw hh
  split
  · exact synthesizeViewBox_keeps_truthy _ _ _ h1
  · split
    · exact synthesizeViewBox_keeps_truthy _ _ _ h1
    · exact h1

/-- Witness for C4 at a concrete artifact with width 400, height 300 and
no viewport attribute. -/
theorem generateHighQualitySvg_viewBox_witness :
    attrTruthy (generateHighQualitySvg (js "maximum")
      { width := some (js "400"), height := some (js "300"), viewBox := none,
        xmlns := none, xmlnsXlink := none }).viewBox = true :=
  generateHighQualitySvg_viewBox (js "maximum")
    { width := some (js "400"), height := some (js "300"), viewBox := none,
      xmlns := none, xmlnsXlink := none } (by decide) (by decide)

/-- Oracle for the host vault storage API (existence check, non-recursive
folder creation, binary write), each call answering by path. -/
structure VaultApi where
  adapterExists : JsStr → Bool
  createFolderOk : JsStr → Bool
  createBinaryOk : JsStr → Bool

/-- Strip step of the path normalization in `saveToVault`
(src/main.ts, line 885): `replace(/^\/+|\/+$/g, '')`. -/
def stripSlashes (s : JsStr) : JsStr :=
  ((s.dropWhile (fun c => c = '/')).reverse.dropWhile (fun c => c = '/')).reverse

/-- The manual parent-walk of `saveToVault` (src/main.ts, lines 909-917):
create each missing path segment top-down; a failing `createFolder` call
is uncaught there and rejects the whole save. -/
def walkCreateFolders (api : VaultApi) (currentPath : JsStr) : List JsStr → Except JsStr Unit
  | [] => .ok ()
  | part :: rest =>
    let nextPath := if currentPath.isEmpty then part else currentPath ++ js "/" ++ part
    if api.adapterExists nextPath then walkCreateFolders api nextPath rest
    else if api.createFolderOk nextPath then walkCreateFolders api nextPath rest
    else .error (js "createFolder failed")

/-- Embedding of `saveToVault` (src/main.ts, lines 881-924): normalize the
configured folder path, ensure the folder exists (direct create first,
manual parent walk on its failure), then write the file; any uncaught
failure rejects. -/
def saveToVault (api : VaultApi) (defaultExportLocation filename : JsStr) :
    Except JsStr Unit := do
  let exportPath := jsTrim defaultExportLocation
  let stripped := stripSlashes exportPath
  let normalizedPath :=
    if !stripped.isEmpty && !jsEndsWith stripped (js "/") then stripped ++ js "/"
    else stripped
  let fullPath := normalizedPath ++ filename
  let dirPath := normalizedPath
  if !dirPath.isEmpty then
    if api.adapterExists dirPath then pure ()
    else if api.createFolderOk dirPath then pure ()
    else
      let parts := (dirPath.splitOn '/').filter (fun p => !p.isEmpty)
      walkCreateFolders api [] parts
  if api.createBinaryOk fullPath then pure ()
  else throw (js "createBinary failed")

/-- Where the exported bytes ended up. -/
inductive Delivery where
  | vault
  | browser
deriving DecidableEq

/-- Result of one `downloadFile` run: the destination actually used and
whether the non-fatal "using browser download instead" warning notice was
emitted. -/
structure DownloadOutcome where
  delivery : Delivery
  warned : Bool
deriving DecidableEq

/-- Executable success test for `Except`. -/
def exceptIsOk {ε α : Type} : Except ε α → Bool
  | .ok _ => true
  | .error _ => false

/-- Embedding of `downloadFile` (src/main.ts, lines 837-876): when a
truthy destination folder is configured, try the vault save; on its
failure emit the warning and fall through to the browser download (a host
primitive modelled as succeeding), which is also the path taken when no
destination is configured. -/
def downloadFile (api : VaultApi) (defaultExportLocation filename : JsStr) :
    Except JsStr DownloadOutcome :=
  if !defaultExportLocation.isEmpty && !(jsTrim defaultExportLocation).isEmpty then
    match saveToVault api defaultExportLocation filename with
    | .ok _ => .ok ⟨.vault, false⟩
    | .error _ => .ok ⟨.browser, true⟩
  else .ok ⟨.browser, false⟩

/-- C5: with a non-empty destination folder configured, any vault-save
failure makes the persister emit the non-fatal warning and fall back to
the browser download, and `downloadFile` still returns successfully
instead of raising. -/
theorem downloadFile_vault_fallback (api : VaultApi) (defaultExportLocation filename : JsStr)
    (hloc : (jsTrim defaultExportLocation).isEmpty = false)
    (hfail : exceptIsOk (saveToVault api defaultExportLocation filename) = false) :
    downloadFile api defaultExportLocation filename = .ok ⟨.browser, true⟩ := by
  have hne : defaultExportLocation.isEmpty = false := by
    cases defaultExportLocation with
    | nil => exact absurd hloc (by decide)
    | cons c t => rfl
  unfold downloadFile
  rw [hloc, hne]
  simp only [Bool.not_false, Bool.and_self, if_true]
  cases hsv : saveToVault api defaultExportLocation filename with
  | ok u => rw [hsv] at hfail; exact absurd hfail (by simp [exceptIsOk])
  | error e => rfl

/-- Witness for C5: a vault whose binary write always fails (folders all
exist) forces the warned browser fallback. -/
theorem downloadFile_vault_fallback_witness :
    downloadFile
      { adapterExists := fun _ => true, createFolderOk := fun _ => true,
        createBinaryOk := fun _ => false }
      (js "Exports/Mermaid") (js "Design.svg") = .ok ⟨.browser, true⟩ :=
  downloadFile_vault_fallback
    { adapterExists := fun _ => true, createFolderOk := fun _ => true,
      createBinaryOk := fun _ => false }
    (js "Exports/Mermaid") (js "Design.svg") (by decide) rfl

/-- Child elements of an action-bar anchor, as `addExportButton` sees
them: this plugin's export control, the host's edit control, or any other
element. -/
inductive Ctrl where
  | exportBtn
  | editBtn
  | other (tag : Nat)
deriving DecidableEq

/-- Selector predicate for `.mermaid-export-button`. -/
def isExportCtrl : Ctrl → Bool
  | .exportBtn => true
  | _ => false

/-- Selector predicate for the host edit-control selectors of
src/main.ts line 399. -/
def isEditCtrl : Ctrl → Bool
  | .editBtn => true
  | _ => false

/-- Insertion after the first edit control (src/main.ts, lines 400-406:
`insertBefore` the edit control's next sibling, or append when the edit
control is last). -/
def insertAfterFirstEdit : List Ctrl → List Ctrl
  | [] => []
  | c :: rest =>
    if isEditCtrl c then c :: Ctrl.exportBtn :: rest
    else c :: insertAfterFirstEdit rest

/-- Embedding of `addExportButton` (src/main.ts, lines 338-415) as its
effect on the anchor's child list: no-op when an export control is
already present; otherwise insert the new control right after the first
edit control, or at the start of the anchor when no edit control is
found. -/
def addExportButton (actionBar : List Ctrl) : List Ctrl :=
  if actionBar.any isExportCtrl then actionBar
  else if actionBar.any isEditCtrl then insertAfterFirstEdit actionBar
  else Ctrl.exportBtn :: actionBar

theorem insertAfterFirstEdit_has_export (bar : List Ctrl)
    (h : bar.any isEditCtrl = true) :
    (insertAfterFirstEdit bar).any isExportCtrl = true := by
  induction bar with
  | nil => simp at h
  | cons c rest ih =>
    unfold insertAfterFirstEdit
    by_cases hc : isEditCtrl c = true
    · simp [hc, isExportCtrl]
    · have hc' : isEditCtrl c = false := by
        cases hcc : isEditCtrl c
        · rfl
        · exact absurd hcc hc
      rw [if_neg hc]
      simp only [List.any_cons, hc', Bool.false_or] at h
      simp only [List.any_cons, Bool.or_eq_true]
      right
      exact ih h

theorem addExportButton_has_export (bar : List Ctrl) :
    (addExportButton bar).any isExportCtrl = true := by
  unfold addExportButton
  by_cases h1 : bar.any isExportCtrl = true
  · rw [if_pos h1]; exact h1
  · rw [if_neg h1]
    by_cases h2 : bar.any isEditCtrl = true
    · rw [if_pos h2]; exact insertAfterFirstEdit_has_export bar h2
    · rw [if_neg h2]; simp [isExportCtrl]

theorem countExport_insertAfterFirstEdit (bar : List Ctrl) :
    (insertAfterFirstEdit bar).countP isExportCtrl ≤ bar.countP isExportCtrl + 1 := by
  induction bar with
  | nil => simp [insertAfterFirstEdit]
  | cons c rest ih =>
    unfold insertAfterFirstEdit
    by_cases hc : isEditCtrl c = true
    · rw [if_pos hc]
      simp only [List.countP_cons]
      have hx : (if isExportCtrl Ctrl.exportBtn = true then 1 else 0) = 1 := rfl
      rw [hx]
      omega
    · rw [if_neg hc]
      simp only [List.countP_cons]
      omega

/-- C7: attaching an export control is idempotent (an anchor that already
holds one is left unchanged, and a second call never changes the result),
it never raises the export-control count above one, and the new control
goes right after the first edit control when one is present, else to the
start of the anchor. -/
theorem addExportButton_spec :
    (∀ bar : List Ctrl, bar.any isExportCtrl = true → addExportButton bar = bar)
    ∧ (∀ bar : List Ctrl, addExportButton (addExportButton bar) = addExportButton bar)
    ∧ (∀ bar : List Ctrl,
        (addExportButton bar).countP isExportCtrl ≤ max 1 (bar.countP isExportCtrl))
    ∧ (∀ bar : List Ctrl, bar.any isExportCtrl = false → bar.any isEditCtrl = false →
        addExportButton bar = Ctrl.exportBtn :: bar)
    ∧ (∀ l₁ l₂ : List Ctrl, (l₁ ++ Ctrl.editBtn :: l₂).any isExportCtrl = false →
        l₁.any isEditCtrl = false →
        addExportButton (l₁ ++ Ctrl.editBtn :: l₂)
          = l₁ ++ Ctrl.editBtn :: Ctrl.exportBtn :: l₂) := by
  have hnoop : ∀ bar : List Ctrl, bar.any isExportCtrl = true → addExportButton bar = bar := by
    intro bar h
    unfold addExportButton
    rw [if_pos h]
  refine ⟨hnoop, ?_, ?_, ?_, ?_⟩
  · intro bar
    exact hnoop (addExportButton bar) (addExportButton_has_export bar)
  · intro bar
    unfold addExportButton
    by_cases h1 : bar.any isExportCtrl = true
    · rw [if_pos h1]
      exact le_max_right 1 _
    · rw [if_neg h1]
      have hzero : bar.countP isExportCtrl = 0 := by
        rw [List.countP_eq_zero]
        intro c hc
        by_contra hcc
        exact h1 (List.any_eq_true.mpr ⟨c, hc, by simpa using hcc⟩)
      by_cases h2 : bar.any isEditCtrl = true
      · rw [if_pos h2]
        have := countExport_insertAfterFirstEdit bar
        omega
      · rw [if_neg h2]
        simp [List.countP_cons, hzero, isExportCtrl]
  · intro bar h1 h2
    unfold addExportButton
    rw [h1, h2]
    simp
  · intro l₁ l₂ h1 h2
    unfold addExportButton
    have h3 : (l₁ ++ Ctrl.editBtn :: l₂).any isEditCtrl = true := by
      simp [isEditCtrl]
    rw [if_neg (by simp [h1]), if_pos h3]
    clear h1 h3
    induction l₁ with
    | nil => simp [insertAfterFirstEdit, isEditCtrl]
    | cons c rest ih =>
      simp only [List.any_cons, Bool.or_eq_false_iff] at h2
      obtain ⟨hc, hrest⟩ := h2
      simp only [List.cons_append, insertAfterFirstEdit, hc, Bool.false_eq_true, if_false,
        List.append_eq]
      rw [ih hrest]

/-- Witness for C7: placement after the edit control on a concrete
anchor holding one foreign element and one edit control. -/
theorem addExportButton_spec_witness :
    addExportButton [Ctrl.other 0, Ctrl.editBtn]
      = [Ctrl.other 0, Ctrl.editBtn, Ctrl.exportBtn] :=
  addExportButton_spec.2.2.2.2 [Ctrl.other 0] [] (by decide) (by decide)

/-- An export button found by the orphan sweep, reduced to what
`cleanupRemovedDiagrams` asks about it: the result of
`findAssociatedMermaidElement` (`none` models a null return), with the
associated diagram node named by identity. -/
structure ExportBtnRef where
  assoc : Option Nat
deriving DecidableEq

/-- Liveness test the orphan sweep applies to one button
(src/main.ts, lines 143-148): keep it iff an associated diagram element
was found and that element is still contained in the document body. -/
def btnLive (inBody : Nat → Bool) (b : ExportBtnRef) : Bool :=
  match b.assoc with
  | none => false
  | some el => inBody el

/-- Embedding of `cleanupRemovedDiagrams` (src/main.ts, lines 129-149):
diagram nodes are named by identity (`Nat`), `inBody` is the
`document.body.contains` oracle, the registry is the `processedDiagrams`
set and the button list is the result of the
`.mermaid-export-button` query.  The pass deletes every registered node
no longer contained in the body and removes every button whose associated
element is missing or detached. -/
def cleanupRemovedDiagrams (inBody : Nat → Bool) (registry : List Nat)
    (buttons : List ExportBtnRef) : List Nat × List ExportBtnRef :=
  (registry.filter inBody, buttons.filter (btnLive inBody))

/-- C8: one cleanup pass removes from the registry exactly the registered
nodes no longer contained in the body (so afterwards every registry entry
is reachable from the tree root), and keeps exactly the export controls
whose associated diagram element exists and is still attached. -/
theorem cleanupRemovedDiagrams_spec (inBody : Nat → Bool) (registry : List Nat)
    (buttons : List ExportBtnRef) :
    (∀ n : Nat, n ∈ (cleanupRemovedDiagrams inBody registry buttons).1 ↔
      n ∈ registry ∧ inBody n = true)
    ∧ ((cleanupRemovedDiagrams inBody registry buttons).1.all inBody = true)
    ∧ (∀ b : ExportBtnRef, b ∈ (cleanupRemovedDiagrams inBody registry buttons).2 ↔
      b ∈ buttons ∧ btnLive inBody b = true) := by
  refine ⟨fun n => ?_, ?_, fun b => ?_⟩
  · exact List.mem_filter
  · rw [List.all_eq_true]
    intro n hn
    exact (List.mem_filter.mp hn).2
  · exact List.mem_filter

end MermaidExporter
